import Mathlib

/-!
Shallow embedding of the product-catalog core of `src/app.py` (load_data,
normalize_product, search_products) together with proofs of the spec claims.

Modelling conventions:
* Python/JSON values are the inductive `PyVal`; a JSON object (Python dict,
  the shape of a catalog record) is an association list `List (String × PyVal)`
  in insertion order.
* Python dicts used as mutable maps (`PRODUCTS_MAP`, `PRODUCT_NAMES_MAP`) are
  insertion-ordered association lists; assignment `d[k] = v` keeps the
  position of an existing key (`mapInsert`).
* Python numbers are modelled by `Int`/`Rat` (`float` as `Rat`): the claims
  only compare produced numbers for equality with literals, which `Rat`
  captures exactly.
* Fallible Python operations are modelled with `Option`/`Except`:
  `float(x)` that may raise is `pyFloat : PyVal → Option Rat`; code paths in
  which an uncaught exception can escape return `Except Unit _`, with
  `.error ()` standing for the raised exception.
* `str.lower()` is modelled per-character with `Char.toLower` (the catalog
  data and all claims stay in the ASCII range where this agrees with Python),
  `str.strip()` drops leading/trailing whitespace characters.
-/

namespace Lumina

/-- A Python/JSON value as manipulated by `app.py`: `None`, booleans,
integers, floats (modelled exactly as rationals), strings, lists, and
dicts (JSON objects) as insertion-ordered association lists. -/
inductive PyVal : Type where
  | none : PyVal
  | bool : Bool → PyVal
  | int : Int → PyVal
  | float : Rat → PyVal
  | str : String → PyVal
  | list : List PyVal → PyVal
  | dict : List (String × PyVal) → PyVal

/-- A catalog record: a Python dict, i.e. an association list of fields. -/
abbrev Record := List (String × PyVal)

/-- Python `str.lower()` (ASCII range, per character). -/
def pyLower (s : String) : String :=
  String.mk (s.data.map Char.toLower)

/-- Python `str.strip()`: drop leading and trailing whitespace. -/
def pyStrip (s : String) : String :=
  String.mk
    ((((s.data.dropWhile Char.isWhitespace).reverse.dropWhile
        Char.isWhitespace)).reverse)

mutual

/-- Python `str(v)`: `None ↦ "None"`, booleans capitalised, numbers in
decimal, a string is itself, containers rendered recursively with their
elements in `repr` form (strings quoted), as Python prints them. -/
def pyStr : PyVal → String
  | .none => "None"
  | .bool true => "True"
  | .bool false => "False"
  | .int n => toString n
  | .float q => toString q
  | .str s => s
  | .list xs => "[" ++ pyStrList xs ++ "]"
  | .dict kvs => "\x7b" ++ pyStrDict kvs ++ "\x7d"

/-- Comma-separated rendering of the elements of a Python list. -/
def pyStrList : List PyVal → String
  | [] => ""
  | [x] => pyRepr x
  | x :: y :: xs => pyRepr x ++ ", " ++ pyStrList (y :: xs)

/-- Comma-separated rendering of the entries of a Python dict. -/
def pyStrDict : List (String × PyVal) → String
  | [] => ""
  | [(k, v)] => "'" ++ k ++ "': " ++ pyRepr v
  | (k, v) :: e :: kvs =>
      "'" ++ k ++ "': " ++ pyRepr v ++ ", " ++ pyStrDict (e :: kvs)

/-- Python `repr(v)` as used inside container rendering: strings are
quoted, everything else renders as `str(v)`. -/
def pyRepr : PyVal → String
  | .str s => "'" ++ s ++ "'"
  | .none => "None"
  | .bool true => "True"
  | .bool false => "False"
  | .int n => toString n
  | .float q => toString q
  | .list xs => "[" ++ pyStrList xs ++ "]"
  | .dict kvs => "\x7b" ++ pyStrDict kvs ++ "\x7d"

end

/-- Value of a digit string read left to right (validity checked separately). -/
def natOfDigits (cs : List Char) : Nat :=
  cs.foldl (fun a c => a * 10 + (c.toNat - 48)) 0

/-- Parse an unsigned Python float literal: digits, optionally a single
point with further digits, at least one digit in total (exponents and the
`inf`/`nan` spellings are not exercised by the catalog data and are
rejected here). -/
def parseUnsigned (cs : List Char) : Option Rat :=
  let intPart := cs.takeWhile Char.isDigit
  let rest := cs.dropWhile Char.isDigit
  match rest with
  | [] => if intPart.isEmpty then Option.none else some (natOfDigits intPart)
  | '.' :: frac =>
      if frac.all Char.isDigit && !(intPart.isEmpty && frac.isEmpty) then
        some ((natOfDigits intPart : Rat)
          + (natOfDigits frac : Rat) / (10 : Rat) ^ frac.length)
      else Option.none
  | _ => Option.none

/-- Python `float(s)` on a string: strip whitespace, optional sign, then an
unsigned numeric literal; `Option.none` models the raised `ValueError`. -/
def parsePyFloat (s : String) : Option Rat :=
  match (pyStrip s).data with
  | '+' :: rest => parseUnsigned rest
  | '-' :: rest => (parseUnsigned rest).map (fun q => -q)
  | cs => parseUnsigned cs

/-- Python `float(v)` on an arbitrary value: numbers and booleans convert,
strings are parsed, everything else raises (`Option.none`). -/
def pyFloat : PyVal → Option Rat
  | .int n => some (n : Rat)
  | .float q => some q
  | .bool b => some (if b then 1 else 0)
  | .str s => parsePyFloat s
  | _ => Option.none

/-- Python `d.get(k)` on a dict-as-association-list: the first binding of
`k`, if any (keys built by this program are unique). -/
def recGet (p : List (String × PyVal)) (k : String) : Option PyVal :=
  (p.find? (fun kv => kv.1 == k)).map (fun kv => kv.2)

/-- Python `d.get(k, default)`. -/
def recGetD (p : List (String × PyVal)) (k : String) (d : PyVal) : PyVal :=
  (recGet p k).getD d

/-- Python dict assignment `m[k] = v` on an insertion-ordered association
list: an existing key keeps its position and gets the new value, a new key
is appended. -/
def mapInsert {α : Type} (m : List (String × α)) (k : String) (v : α) :
    List (String × α) :=
  if m.any (fun kv => kv.1 == k) then
    m.map (fun kv => if kv.1 == k then (k, v) else kv)
  else m ++ [(k, v)]

/-- Python dict lookup `m[k]` / `k in m`: the first binding of `k`. -/
def mapFind {α : Type} (m : List (String × α)) (k : String) : Option α :=
  (m.find? (fun kv => kv.1 == k)).map (fun kv => kv.2)

/-- The two global maps built by `load_data`: `PRODUCTS_MAP` (identifier →
record) and `PRODUCT_NAMES_MAP` (trimmed display name → identifier). -/
structure CatalogState : Type where
  products : List (String × Record)
  names : List (String × String)

/-- The identifier derivation of `load_data` line 55:
`str(item.get('product_id_numeric', item.get('product_id', 'N/A')))`. -/
def derivePid (p : Record) : String :=
  pyStr (recGetD p "product_id_numeric" (recGetD p "product_id" (.str "N/A")))

/-- The record loop of `load_data` (lines 53-58), one item at a time.
A bare string is skipped (`isinstance(item, str)`); a dict derives its
identifier and, unless that identifier stringifies to `"None"`, is stored
in the products map and its stripped display name in the names map — a
non-string `product_name` raises `AttributeError` on `.strip()` after the
products insertion, which the outer `except` catches: the loop stops with
the state reached so far.  Any other item (number, boolean, null, list)
raises `AttributeError` on `.get` and likewise stops the loop. -/
def loadItems : List PyVal → CatalogState → CatalogState
  | [], st => st
  | item :: rest, st =>
    match item with
    | .str _ => loadItems rest st
    | .dict kvs =>
      let pid := derivePid kvs
      if pid = "None" then loadItems rest st
      else
        let st1 : CatalogState := ⟨mapInsert st.products pid kvs, st.names⟩
        match recGetD kvs "product_name" (.str "") with
        | .str s =>
            loadItems rest ⟨st1.products, mapInsert st1.names (pyStrip s) pid⟩
        | _ => st1
    | _ => st

/-- Line 51 of `load_data`: a top-level list is used as is, a top-level
dict contributes its values, anything else yields no records. -/
def dataList : PyVal → List PyVal
  | .list xs => xs
  | .dict kvs => kvs.map (fun kv => kv.2)
  | _ => []

/-- The catalog branch of `load_data`: `.error ()` models `json.load`
raising on malformed input, in which case the `except` leaves the maps as
they were; otherwise the record loop runs on the extracted list. -/
def loadCatalog : Except Unit PyVal → CatalogState → CatalogState
  | .error _, st => st
  | .ok raw, st => loadItems (dataList raw) st

/-- The response shape produced by `normalize_product`: pass-through
fields keep their raw `PyVal`, the two prices are numbers. -/
structure NormalizedProduct : Type where
  p_id : String
  name : PyVal
  brand : PyVal
  rating : PyVal
  prices : Rat
  discounted_price : Rat
  img_link : PyVal
  p_link : PyVal

/-- The `normalize_product` function (lines 70-84): best-effort float
parsing with `0.0` fallback for the price and price fallback for the
discounted price, named defaults for the remaining fields, and an
identifier read from `product_id_numeric` only (no fallback). -/
def normalize_product (p : Record) : NormalizedProduct :=
  let price := (pyFloat (recGetD p "actual_price" (.int 0))).getD 0
  let disc := (pyFloat (recGetD p "discounted_price" (.float price))).getD price
  { p_id := pyStr (recGetD p "product_id_numeric" .none)
    name := recGetD p "product_name" (.str "Unknown")
    brand := recGetD p "Brand" (.str "Generic")
    rating := recGetD p "rating" (.int 0)
    prices := price
    discounted_price := disc
    img_link := recGetD p "img_link" (.str "")
    p_link := recGetD p "product_link" (.str "#") }

/-- Line 157 / 179: `str(p.get('Brand')).lower()` — the raw brand field
(default `None`) stringified and lowered; the `"Generic"` display default
plays no role here. -/
def brandLower (p : Record) : String :=
  pyLower (pyStr (recGetD p "Brand" .none))

/-- Lines 164 / 178: `p.get('product_name', '').lower()`; a non-string
name raises `AttributeError` on `.lower()`. -/
def lowerName (p : Record) : Except Unit String :=
  match recGetD p "product_name" (.str "") with
  | .str s => .ok (pyLower s)
  | _ => .error ()

/-- Python substring test `sub in hay`. -/
def strContains (hay sub : String) : Bool :=
  hay.data.tails.any (fun t => sub.data.isPrefixOf t)

/-- Tier-2 anchor scan (lines 162-165): the first catalog record whose
lowered name contains the query; errors propagate. -/
def findAnchor (query : String) :
    List (String × Record) → Except Unit (Option String)
  | [] => .ok Option.none
  | (pid, p) :: rest =>
    match lowerName p with
    | .error e => .error e
    | .ok nm =>
        if strContains nm query then .ok (some pid) else findAnchor query rest

/-- Tier-2 stub resolution (lines 169-171): a stub whose `product_name` is
a string present in the names map contributes `PRODUCTS_MAP[names[name]]`
(a dangling identifier raises `KeyError`), any other stub is skipped. -/
def resolveRecs (names : List (String × String))
    (products : List (String × Record)) :
    List Record → Except Unit (List Record)
  | [] => .ok []
  | stub :: rest =>
    match recGet stub "product_name" with
    | some (.str s) =>
      match mapFind names s with
      | some pid =>
        match mapFind products pid with
        | some p =>
          match resolveRecs names products rest with
          | .error e => .error e
          | .ok ps => .ok (p :: ps)
        | Option.none => .error ()
      | Option.none => resolveRecs names products rest
    | _ => resolveRecs names products rest

/-- Tier 2 (lines 167-172): runs only when the anchor is truthy (a
non-empty identifier) and present in the recommendation table; otherwise
it contributes nothing. -/
def tier2Results (mid : Option String) (recs : List (String × List Record))
    (names : List (String × String)) (products : List (String × Record)) :
    Except Unit (List Record) :=
  match mid with
  | Option.none => .ok []
  | some pid =>
    if pid = "" then .ok []
    else
      match mapFind recs pid with
      | some recList => resolveRecs names products recList
      | Option.none => .ok []

/-- Tier-3 scoring loop (lines 176-180): +10 for a name substring hit, +5
for a brand substring hit, records scoring 0 are not collected. -/
def scoredList (query : String) :
    List (String × Record) → Except Unit (List (Nat × Record))
  | [] => .ok []
  | (_, p) :: rest =>
    match lowerName p with
    | .error e => .error e
    | .ok nm =>
      let sc := (if strContains nm query then 10 else 0)
        + (if strContains (brandLower p) query then 5 else 0)
      match scoredList query rest with
      | .error e => .error e
      | .ok xs => .ok (if 0 < sc then (sc, p) :: xs else xs)

/-- Comparison used by line 181, `scored.sort(key=lambda x: x[0],
reverse=True)`: descending score. -/
def scoreLE (a b : Nat × Record) : Bool :=
  decide (b.1 ≤ a.1)

/-- Python's `list.sort` is a stable sort; with `reverse=True` on the
score key it is a stable sort by descending score. -/
def sortScored (l : List (Nat × Record)) : List (Nat × Record) :=
  l.mergeSort scoreLE

/-- Tier 3 (lines 174-182): score, stable-sort descending, return the
normalized top 20. -/
def tier3 (query : String) (products : List (String × Record)) :
    Except Unit (List NormalizedProduct) :=
  match scoredList query products with
  | .error e => .error e
  | .ok scored =>
      .ok (((sortScored scored).take 20).map (fun x => normalize_product x.2))

/-- The `search_products` endpoint (lines 149-182): lower and strip the
query, return `[]` if it is empty, otherwise try the brand tier, the
hybrid-recommendation tier, and the scored fallback, in that order, each
only if the previous produced nothing. -/
def search_products (q : String) (products : List (String × Record))
    (names : List (String × String)) (recs : List (String × List Record)) :
    Except Unit (List NormalizedProduct) :=
  let query := pyStrip (pyLower q)
  if query = "" then .ok []
  else
    let brandMatches :=
      (products.filter (fun pr => query == brandLower pr.2)).map (fun pr => pr.2)
    if brandMatches.isEmpty then
      match findAnchor query products with
      | .error e => .error e
      | .ok mid =>
        match tier2Results mid recs names products with
        | .error e => .error e
        | .ok results =>
          if results.isEmpty then tier3 query products
          else .ok ((results.take 20).map normalize_product)
    else .ok ((brandMatches.take 20).map normalize_product)

/-- Test for a record entry (a Python dict). -/
def isRecordV : PyVal → Bool
  | .dict _ => true
  | _ => false

/-- Test for a bare string entry. -/
def isStrV : PyVal → Bool
  | .str _ => true
  | _ => false

/-- The invariant of the two catalog maps: every identifier stored as a
value of the names map is a key of the products map. -/
def NamesLinked (st : CatalogState) : Prop :=
  ∀ n pid, (n, pid) ∈ st.names → ∃ v, (pid, v) ∈ st.products

/-- The invariant of the identifier derivation: every products key is the
derived identifier of its record and is never the string `"None"`, and no
names value is `"None"`. -/
def PidsOk (st : CatalogState) : Prop :=
  (∀ k v, (k, v) ∈ st.products → k = derivePid v ∧ k ≠ "None")
  ∧ (∀ n pid, (n, pid) ∈ st.names → pid ≠ "None")

theorem mapInsert_self {α : Type} (m : List (String × α)) (k : String) (v : α) :
    (k, v) ∈ mapInsert m k v := by
  unfold mapInsert
  split
  · rename_i h
    obtain ⟨kv, hmem, hk⟩ := List.any_eq_true.mp h
    exact List.mem_map.mpr ⟨kv, hmem, by simp [hk]⟩
  · simp

theorem mapInsert_mem {α : Type} {m : List (String × α)} {k : String} {v : α}
    {x : String × α} (h : x ∈ mapInsert m k v) : x ∈ m ∨ x = (k, v) := by
  unfold mapInsert at h
  split at h
  · obtain ⟨kv, hmem, hx⟩ := List.mem_map.mp h
    by_cases hb : kv.1 == k
    · rw [if_pos hb] at hx
      exact Or.inr hx.symm
    · rw [if_neg hb] at hx
      exact Or.inl (hx ▸ hmem)
  · rcases List.mem_append.mp h with h1 | h2
    · exact Or.inl h1
    · exact Or.inr (List.mem_singleton.mp h2)

theorem mapInsert_key_mono {α : Type} {m : List (String × α)} {p : String}
    (k : String) (v : α) (h : ∃ w, (p, w) ∈ m) :
    ∃ w, (p, w) ∈ mapInsert m k v := by
  by_cases hpk : p = k
  · subst hpk
    exact ⟨v, mapInsert_self m p v⟩
  · obtain ⟨w, hw⟩ := h
    refine ⟨w, ?_⟩
    unfold mapInsert
    split
    · exact List.mem_map.mpr ⟨(p, w), hw, by simp [hpk]⟩
    · exact List.mem_append_left _ hw

/-- One-step unfolding of the load loop on a record entry. -/
theorem loadItems_dict_step (kvs : Record) (rest : List PyVal)
    (st : CatalogState) :
    loadItems (PyVal.dict kvs :: rest) st =
      if derivePid kvs = "None" then loadItems rest st
      else
        match recGetD kvs "product_name" (.str "") with
        | .str s =>
            loadItems rest
              ⟨mapInsert st.products (derivePid kvs) kvs,
                mapInsert st.names (pyStrip s) (derivePid kvs)⟩
        | _ => ⟨mapInsert st.products (derivePid kvs) kvs, st.names⟩ := rfl

/-- The identifier invariant is preserved by the whole load loop. -/
theorem loadItems_pidsOk (items : List PyVal) :
    ∀ st : CatalogState, PidsOk st → PidsOk (loadItems items st) := by
  induction items with
  | nil => exact fun st h => h
  | cons item rest ih =>
    intro st h
    cases item with
    | str s => exact ih st h
    | dict kvs =>
      rw [loadItems_dict_step]
      split
      · exact ih st h
      · rename_i hpid
        have hprod : ∀ k v,
            (k, v) ∈ mapInsert st.products (derivePid kvs) kvs →
            k = derivePid v ∧ k ≠ "None" := by
          intro k v hm
          rcases mapInsert_mem hm with hold | heq
          · exact h.1 k v hold
          · obtain ⟨hk, hv⟩ := Prod.mk.injEq .. ▸ heq
            subst hv
            exact ⟨hk, hk ▸ hpid⟩
        split
        · rename_i s hs
          apply ih
          refine ⟨hprod, ?_⟩
          intro n pid hm
          rcases mapInsert_mem hm with hold | heq
          · exact h.2 n pid hold
          · have : pid = derivePid kvs := congrArg Prod.snd heq
            exact this ▸ hpid
        · exact ⟨hprod, h.2⟩
    | none => exact h
    | bool b => exact h
    | int n => exact h
    | float q => exact h
    | list xs => exact h

/-- A record with neither identifier field: its derived identifier is the
fallback literal `"N/A"`. -/
def markerRec : Record := [("product_name", .str "widget")]

/-- A valid record with identifier `"1"`. -/
def sampleRecA : Record :=
  [("product_id_numeric", .int 1), ("product_name", .str "a")]

/-- A valid record with identifier `"2"`. -/
def sampleRecB : Record :=
  [("product_id_numeric", .int 2), ("product_name", .str "b")]

/-- C1, counterexample.  The claim says a record whose derived identifier
resolves to the literal absence marker — the `'N/A'` fallback of line 55 —
is dropped from both maps.  In the code the drop test of line 56 compares
against `'None'`, not `'N/A'`: a record with neither identifier field
derives exactly the marker `"N/A"` and is nevertheless indexed in the
primary map under the key `"N/A"` and pointed to by the secondary map. -/
theorem C1_marker_kept_counterexample :
    derivePid markerRec = "N/A"
    ∧ (loadItems [.dict markerRec] ⟨[], []⟩).products = [("N/A", markerRec)]
    ∧ mapFind (loadItems [.dict markerRec] ⟨[], []⟩).names "widget"
        = some "N/A" :=
  ⟨rfl, rfl, rfl⟩

/-- C1, amended.  The identifier is derived preferentially from
`product_id_numeric`, falling back to `product_id`, falling back to the
literal `'N/A'`, converted to string (this is `derivePid`); a record is
dropped from both maps exactly when that derived identifier stringifies to
`"None"` (a null or `"None"`-valued identifier field), while records that
fall back to `'N/A'` are kept: every key of the primary map is the derived
identifier of its record and is never `"None"`, and no secondary-map value
is `"None"`. -/
theorem C1_derived_id_drop (items : List PyVal) :
    (∀ k v, (k, v) ∈ (loadItems items ⟨[], []⟩).products →
      k = derivePid v ∧ k ≠ "None")
    ∧ (∀ n pid, (n, pid) ∈ (loadItems items ⟨[], []⟩).names → pid ≠ "None") :=
  loadItems_pidsOk items ⟨[], []⟩
    ⟨fun _ _ h => absurd h (List.not_mem_nil _),
      fun _ _ h => absurd h (List.not_mem_nil _)⟩

/-- C2, counterexample.  The claim says non-record entries are silently
skipped and that a failing load retains no partial set of records.  A
non-record entry that is not a bare string (here the number `42`) raises
`AttributeError` on `.get`, which the outer handler catches after part of
the list has been indexed: the valid record `"1"` before the number is
retained, the equally valid record `"2"` after it is lost — without the
interloper both are indexed. -/
theorem C2_partial_retention_counterexample :
    mapFind (loadItems [.dict sampleRecA, .int 42, .dict sampleRecB]
        ⟨[], []⟩).products "1" = some sampleRecA
    ∧ mapFind (loadItems [.dict sampleRecA, .int 42, .dict sampleRecB]
        ⟨[], []⟩).products "2" = Option.none
    ∧ mapFind (loadItems [.dict sampleRecA, .dict sampleRecB]
        ⟨[], []⟩).products "2" = some sampleRecB :=
  ⟨rfl, rfl, rfl⟩

/-- C2, amended.  A parse failure of the catalog file leaves the maps
unchanged; a bare string entry is silently skipped; any other non-record
entry (number, boolean, null, nested list) raises inside the loop, which
the handler catches: the loop stops with the records indexed so far and no
error reaches the caller (in the embedding `loadCatalog` and `loadItems`
return a state, never an exception). -/
theorem C2_load_failure_behaviour (s : String) (v : PyVal) (rest : List PyVal)
    (st : CatalogState) (hrec : isRecordV v = false) (hstr : isStrV v = false) :
    loadCatalog (.error ()) st = st
    ∧ loadItems (.str s :: rest) st = loadItems rest st
    ∧ loadItems (v :: rest) st = st := by
  refine ⟨rfl, rfl, ?_⟩
  cases v <;> simp_all [isRecordV, isStrV, loadItems]

/-- Witness for C2_load_failure_behaviour at the string `"x"`, the
non-record entry `42`, an empty remainder and the empty state. -/
theorem C2_load_failure_behaviour_witness :
    loadCatalog (.error ()) ⟨[], []⟩ = (⟨[], []⟩ : CatalogState)
    ∧ loadItems [.str "x"] ⟨[], []⟩ = loadItems [] ⟨[], []⟩
    ∧ loadItems [.int 42] ⟨[], []⟩ = (⟨[], []⟩ : CatalogState) :=
  C2_load_failure_behaviour "x" (.int 42) [] ⟨[], []⟩ rfl rfl

/-- A record with no actual-price field but a numeric discounted-price
field. -/
def discountOnlyRec : Record := [("discounted_price", .int 5)]

/-- A record in which both price fields are non-numeric strings. -/
def badPriceRec : Record :=
  [("actual_price", .str "n/a"), ("discounted_price", .str "n/a")]

/-- C3, counterexample.  The claim says that whenever the actual-price
field is non-numeric or absent, the produced price is 0.0 and the produced
discounted price equals that price.  For a record with no actual-price
field but a numeric discounted-price field, the price is indeed 0.0 but
the discounted price is the parsed field value 5, not the price. -/
theorem C3_discount_counterexample :
    recGet discountOnlyRec "actual_price" = Option.none
    ∧ (normalize_product discountOnlyRec).prices = 0
    ∧ (normalize_product discountOnlyRec).discounted_price = 5
    ∧ (normalize_product discountOnlyRec).discounted_price
        ≠ (normalize_product discountOnlyRec).prices := by
  refine ⟨rfl, rfl, rfl, ?_⟩
  have h1 : (normalize_product discountOnlyRec).discounted_price = 5 := rfl
  have h2 : (normalize_product discountOnlyRec).prices = 0 := rfl
  rw [h1, h2]
  norm_num

/-- C3, amended.  `normalize_product` is total by construction (the
failing `float` conversions are the `Option.none` results of `pyFloat`,
absorbed by defaults).  For every record whose actual-price field is
non-numeric or absent, the produced price is 0.0; the produced discounted
price equals that price whenever the discounted-price field is itself also
non-numeric or absent. -/
theorem C3_price_defaults (p : Record)
    (hp : recGet p "actual_price" = Option.none
      ∨ ∃ v, recGet p "actual_price" = some v ∧ pyFloat v = Option.none) :
    (normalize_product p).prices = 0
    ∧ ((recGet p "discounted_price" = Option.none
        ∨ ∃ w, recGet p "discounted_price" = some w ∧ pyFloat w = Option.none)
      → (normalize_product p).discounted_price = (normalize_product p).prices) := by
  have hprice : (normalize_product p).prices = 0 := by
    rcases hp with h | ⟨v, hv, hfv⟩
    · simp [normalize_product, recGetD, h, pyFloat]
    · simp [normalize_product, recGetD, hv, hfv]
  refine ⟨hprice, fun hd => ?_⟩
  rcases hd with h | ⟨w, hw, hfw⟩
  · simp [normalize_product, recGetD, h, pyFloat]
  · simp [normalize_product, recGetD, hw, hfw]

/-- Witness for C3_price_defaults at a record whose two price fields are
both the unparseable string `"n/a"`. -/
theorem C3_price_defaults_witness :
    (recGet badPriceRec "actual_price" = some (PyVal.str "n/a")
      ∧ pyFloat (PyVal.str "n/a") = Option.none)
    ∧ (normalize_product badPriceRec).prices = 0
    ∧ (normalize_product badPriceRec).discounted_price
        = (normalize_product badPriceRec).prices :=
  ⟨⟨rfl, rfl⟩,
    (C3_price_defaults badPriceRec (Or.inr ⟨PyVal.str "n/a", rfl, rfl⟩)).1,
    (C3_price_defaults badPriceRec (Or.inr ⟨PyVal.str "n/a", rfl, rfl⟩)).2
      (Or.inr ⟨PyVal.str "n/a", rfl, rfl⟩)⟩

/-- C8.  The secondary-map invariant — every identifier stored as a value
of the trimmed-name map is a key of the primary record map — is preserved
by the load loop from any state satisfying it, hence holds after
`load_data` and at every intermediate point of the loop (every tail of the
item list applied to the state reached so far). -/
theorem C8_names_linked (items : List PyVal) :
    ∀ st : CatalogState, NamesLinked st → NamesLinked (loadItems items st) := by
  induction items with
  | nil => exact fun st h => h
  | cons item rest ih =>
    intro st h
    cases item with
    | str s => exact ih st h
    | dict kvs =>
      rw [loadItems_dict_step]
      split
      · exact ih st h
      · have hprod : ∀ n pid, (n, pid) ∈ st.names →
            ∃ v, (pid, v) ∈ mapInsert st.products (derivePid kvs) kvs :=
          fun n pid hm => mapInsert_key_mono _ _ (h n pid hm)
        split
        · rename_i s hs
          apply ih
          intro n pid hm
          rcases mapInsert_mem hm with hold | heq
          · exact hprod n pid hold
          · have : pid = derivePid kvs := congrArg Prod.snd heq
            exact this ▸ ⟨kvs, mapInsert_self ..⟩
        · exact fun n pid hm => hprod n pid hm
    | none => exact h
    | bool b => exact h
    | int n => exact h
    | float q => exact h
    | list xs => exact h

/-- Witness for C8_names_linked: the empty state satisfies the invariant
and so does the state after loading two concrete records. -/
theorem C8_names_linked_witness :
    NamesLinked ⟨[], []⟩
    ∧ NamesLinked (loadItems [.dict sampleRecA, .dict sampleRecB] ⟨[], []⟩) :=
  ⟨fun _ _ h => absurd h (List.not_mem_nil _),
    C8_names_linked [.dict sampleRecA, .dict sampleRecB] ⟨[], []⟩
      (fun _ _ h => absurd h (List.not_mem_nil _))⟩

/-- A record indexed through the `product_id` fallback: it has no
`product_id_numeric` field. -/
def fallbackIdRec : Record :=
  [("product_id", .int 3), ("product_name", .str "w")]

/-- C10.  `normalize_product` reads its identifier from
`product_id_numeric` only (line 76), with no `product_id` fallback: a
record lacking that field normalizes to the literal `"None"`, and since no
catalog key is ever `"None"` (line 56), the normalized identifier differs
from the key under which the record is indexed. -/
theorem C10_normalized_id_mismatch (p : Record) (items : List PyVal)
    (k : String) (hp : recGet p "product_id_numeric" = Option.none) :
    (normalize_product p).p_id = "None"
    ∧ ((k, p) ∈ (loadItems items ⟨[], []⟩).products →
        (normalize_product p).p_id ≠ k) := by
  have h1 : (normalize_product p).p_id = "None" := by
    simp [normalize_product, recGetD, hp, pyStr]
  refine ⟨h1, fun hmem => ?_⟩
  have h2 := (loadItems_pidsOk items ⟨[], []⟩
    ⟨fun _ _ h => absurd h (List.not_mem_nil _),
      fun _ _ h => absurd h (List.not_mem_nil _)⟩).1 k p hmem
  rw [h1]
  exact fun hkeq => h2.2 hkeq.symm

/-- Witness for C10_normalized_id_mismatch at a record indexed under the
`product_id` fallback key `"3"`. -/
theorem C10_normalized_id_mismatch_witness :
    recGet fallbackIdRec "product_id_numeric" = Option.none
    ∧ (normalize_product fallbackIdRec).p_id = "None"
    ∧ ("3", fallbackIdRec) ∈ (loadItems [.dict fallbackIdRec] ⟨[], []⟩).products
    ∧ (normalize_product fallbackIdRec).p_id ≠ "3" := by
  have hmem : ("3", fallbackIdRec)
      ∈ (loadItems [.dict fallbackIdRec] ⟨[], []⟩).products := by
    have h : (loadItems [.dict fallbackIdRec] ⟨[], []⟩).products
        = [("3", fallbackIdRec)] := rfl
    rw [h]
    exact List.mem_singleton_self _
  exact ⟨rfl, (C10_normalized_id_mismatch fallbackIdRec [.dict fallbackIdRec]
      "3" rfl).1, hmem,
    (C10_normalized_id_mismatch fallbackIdRec [.dict fallbackIdRec] "3"
      rfl).2 hmem⟩

/-- A record with an exact brand and a name, used as a concrete catalog
entry by the search witnesses. -/
def brandedRec : Record := [("Brand", .str "Acme"), ("product_name", .str "Blue")]

/-- Lists shortened to 20 and mapped have length at most 20. -/
theorem length_take20_map {α : Type} (f : α → NormalizedProduct) (l : List α) :
    ((l.take 20).map f).length ≤ 20 := by
  rw [List.length_map, List.length_take]
  exact min_le_left _ _

/-- C4.  Whatever tier produces it, a search result for a non-empty
(after lowering and trimming) query over any catalog, name map and
recommendation table has at most 20 entries: every return site truncates
with `[:20]`. -/
theorem C4_result_bounded (q : String) (products : List (String × Record))
    (names : List (String × String)) (recs : List (String × List Record))
    (res : List NormalizedProduct) (hq : pyStrip (pyLower q) ≠ "")
    (h : search_products q products names recs = .ok res) :
    res.length ≤ 20 := by
  simp only [search_products] at h
  rw [if_neg hq] at h
  split at h
  · split at h
    · exact Except.noConfusion h
    · split at h
      · exact Except.noConfusion h
      · split at h
        · simp only [tier3] at h
          split at h
          · exact Except.noConfusion h
          · injection h with h'
            exact h' ▸ length_take20_map _ _
        · injection h with h'
          exact h' ▸ length_take20_map _ _
  · injection h with h'
    exact h' ▸ length_take20_map _ _

/-- Witness for C4_result_bounded: a brand query over a one-record
catalog. -/
theorem C4_result_bounded_witness :
    pyStrip (pyLower "acme") ≠ ""
    ∧ search_products "acme" [("1", brandedRec)] [] []
        = .ok [normalize_product brandedRec]
    ∧ ([normalize_product brandedRec] : List NormalizedProduct).length ≤ 20 :=
  ⟨by decide, rfl,
    C4_result_bounded "acme" [("1", brandedRec)] [] []
      [normalize_product brandedRec] (by decide) rfl⟩

/-- C5.  If some record's brand field, stringified and lowered, equals the
full processed query, the search returns exactly the normalized
brand-matching records in catalog iteration order truncated to 20 — an
equation that holds for every name map and recommendation table, so tiers
2 and 3 are never consulted. -/
theorem C5_brand_tier (q : String) (products : List (String × Record))
    (names : List (String × String)) (recs : List (String × List Record))
    (hq : pyStrip (pyLower q) ≠ "")
    (hex : ∃ pr ∈ products, (pyStrip (pyLower q) == brandLower pr.2) = true) :
    search_products q products names recs =
      .ok ((((products.filter
          (fun pr => pyStrip (pyLower q) == brandLower pr.2)).map
            (fun pr => pr.2)).take 20).map normalize_product) := by
  simp only [search_products]
  rw [if_neg hq]
  obtain ⟨pr, hmem, hmatch⟩ := hex
  have h1 : pr ∈ products.filter
      (fun pr => pyStrip (pyLower q) == brandLower pr.2) :=
    List.mem_filter.mpr ⟨hmem, hmatch⟩
  have h2 : pr.2 ∈ (products.filter
      (fun pr => pyStrip (pyLower q) == brandLower pr.2)).map
        (fun pr => pr.2) :=
    List.mem_map_of_mem _ h1
  have hne : ((products.filter
      (fun pr => pyStrip (pyLower q) == brandLower pr.2)).map
        (fun pr => pr.2)).isEmpty = false := by
    cases hempty : ((products.filter
        (fun pr => pyStrip (pyLower q) == brandLower pr.2)).map
          (fun pr => pr.2)).isEmpty
    · rfl
    · rw [List.isEmpty_iff] at hempty
      rw [hempty] at h2
      exact absurd h2 (List.not_mem_nil _)
  simp [hne]

/-- Witness for C5_brand_tier: query `"  ACME "` against a catalog whose
single record has brand `"Acme"`. -/
theorem C5_brand_tier_witness :
    pyStrip (pyLower "  ACME ") ≠ ""
    ∧ (∃ pr ∈ [("1", brandedRec)],
        (pyStrip (pyLower "  ACME ") == brandLower pr.2) = true)
    ∧ search_products "  ACME " [("1", brandedRec)] [] [] =
        .ok (((([("1", brandedRec)].filter
            (fun pr => pyStrip (pyLower "  ACME ") == brandLower pr.2)).map
              (fun pr => pr.2)).take 20).map normalize_product) :=
  ⟨by decide, ⟨("1", brandedRec), List.mem_singleton_self _, by decide⟩,
    C5_brand_tier "  ACME " [("1", brandedRec)] [] [] (by decide)
      ⟨("1", brandedRec), List.mem_singleton_self _, by decide⟩⟩

/-- Lowercasing never turns a whitespace character into something else. -/
theorem toLower_whitespace {c : Char} (h : c.isWhitespace = true) :
    c.toLower = c := by
  simp only [Char.isWhitespace, Bool.or_eq_true, decide_eq_true_eq] at h
  rcases h with ((h1 | h1) | h1) | h1 <;> subst h1 <;> decide

/-- Lowering then stripping an all-whitespace query yields the empty
string. -/
theorem pyStrip_pyLower_whitespace {q : String}
    (h : ∀ c ∈ q.data, c.isWhitespace = true) : pyStrip (pyLower q) = "" := by
  have hall : ∀ c ∈ (pyLower q).data, c.isWhitespace = true := by
    intro c hc
    simp only [pyLower] at hc
    obtain ⟨c', hc', rfl⟩ := List.mem_map.mp hc
    rw [toLower_whitespace (h c' hc')]
    exact h c' hc'
  unfold pyStrip
  rw [List.dropWhile_eq_nil_iff.mpr hall]
  rfl

/-- C7.  A query that is empty or consists only of whitespace lowers and
strips to the empty string; the search then returns `[]` immediately, for
every catalog, name map and recommendation table (so no scan happens). -/
theorem C7_blank_query (q : String) (products : List (String × Record))
    (names : List (String × String)) (recs : List (String × List Record))
    (h : ∀ c ∈ q.data, c.isWhitespace = true) :
    search_products q products names recs = .ok [] := by
  simp only [search_products]
  rw [if_pos (pyStrip_pyLower_whitespace h)]

/-- Witness for C7_blank_query at the whitespace query `" \t "`. -/
theorem C7_blank_query_witness :
    (∀ c ∈ (" \t ").data, c.isWhitespace = true)
    ∧ search_products " \t " [("1", brandedRec)] [] [] = .ok [] :=
  ⟨by decide, C7_blank_query " \t " [("1", brandedRec)] [] [] (by decide)⟩

/-- C9.  Brand matching reads the raw brand field stringified and lowered:
a record with no brand field compares as the literal `"none"`, so it
tier-1 exact-matches the query `"none"` (the search then returns it, for
any name map and recommendation table), it substring-matches in the tier-3
brand scoring, and yet its normalized form displays the `"Generic"`
default — the display default is never applied during matching. -/
theorem C9_raw_brand_matching (p : Record) (k : String)
    (names : List (String × String)) (recs : List (String × List Record))
    (hb : recGet p "Brand" = Option.none) :
    brandLower p = "none"
    ∧ search_products "none" [(k, p)] names recs = .ok [normalize_product p]
    ∧ (normalize_product p).brand = .str "Generic"
    ∧ strContains (brandLower p) "none" = true := by
  have h1 : brandLower p = "none" := by
    simp only [brandLower, recGetD, hb, Option.getD_none]
    rfl
  have hq : pyStrip (pyLower "none") = "none" := rfl
  refine ⟨h1, ?_, ?_, ?_⟩
  · simp only [search_products, hq]
    rw [if_neg (by decide : ¬("none" : String) = "")]
    simp [List.filter_cons, h1]
  · simp [normalize_product, recGetD, hb]
  · rw [h1]
    rfl

/-- Witness for C9_raw_brand_matching at the empty record (no brand
field). -/
theorem C9_raw_brand_matching_witness :
    recGet ([] : Record) "Brand" = Option.none
    ∧ brandLower ([] : Record) = "none"
    ∧ search_products "none" [("1", ([] : Record))] [] []
        = .ok [normalize_product ([] : Record)]
    ∧ (normalize_product ([] : Record)).brand = .str "Generic"
    ∧ strContains (brandLower ([] : Record)) "none" = true :=
  ⟨rfl, (C9_raw_brand_matching [] "1" [] [] rfl).1,
    (C9_raw_brand_matching [] "1" [] [] rfl).2.1,
    (C9_raw_brand_matching [] "1" [] [] rfl).2.2.1,
    (C9_raw_brand_matching [] "1" [] [] rfl).2.2.2⟩

theorem scoreLE_trans (a b c : Nat × Record) :
    scoreLE a b = true → scoreLE b c = true → scoreLE a c = true := by
  simp only [scoreLE, decide_eq_true_eq]
  omega

theorem scoreLE_total (a b : Nat × Record) :
    (scoreLE a b || scoreLE b a) = true := by
  simp only [scoreLE, Bool.or_eq_true, decide_eq_true_eq]
  omega

/-- Membership in the conditional cons produced by one scoring step. -/
theorem mem_scored_step {sc : Nat} {p : Record} {xs : List (Nat × Record)}
    {e : Nat × Record} (he : e ∈ if 0 < sc then (sc, p) :: xs else xs) :
    e ∈ xs ∨ (e = (sc, p) ∧ 0 < sc) := by
  split at he
  · rename_i hpos
    rcases List.mem_cons.mp he with heq | ht
    · exact Or.inr ⟨heq, hpos⟩
    · exact Or.inl ht
  · exact Or.inl he

/-- Every pair collected by the scoring loop carries exactly the score the
loop computed for its record, and that score is positive. -/
theorem scoredList_mem {query : String} :
    ∀ {ps : List (String × Record)} {scored : List (Nat × Record)},
      scoredList query ps = .ok scored → ∀ e ∈ scored,
      ∃ nm, lowerName e.2 = .ok nm
        ∧ e.1 = (if strContains nm query then 10 else 0)
          + (if strContains (brandLower e.2) query then 5 else 0)
        ∧ 0 < e.1 := by
  intro ps
  induction ps with
  | nil =>
    intro scored h e he
    simp only [scoredList] at h
    injection h with h'
    rw [← h'] at he
    exact absurd he (List.not_mem_nil _)
  | cons pr rest ih =>
    intro scored h e he
    obtain ⟨pid, p⟩ := pr
    simp only [scoredList] at h
    split at h
    · exact Except.noConfusion h
    · rename_i nm hnm
      split at h
      · exact Except.noConfusion h
      · rename_i xs hxs
        injection h with h'
        rw [← h'] at he
        rcases mem_scored_step he with ht | ⟨heq, hpos⟩
        · exact ih hxs e ht
        · subst heq
          exact ⟨nm, hnm, rfl, hpos⟩

/-- Stability of the tier-3 sort: records of any one score appear in the
sorted list exactly as they appeared in the catalog scan. -/
theorem sortScored_filter_score (scored : List (Nat × Record)) (s : Nat) :
    (sortScored scored).filter (fun e => e.1 == s)
      = scored.filter (fun e => e.1 == s) := by
  have hc_pair : (scored.filter (fun e => e.1 == s)).Pairwise
      (fun a b => scoreLE a b = true) := by
    apply List.pairwise_of_forall_mem_list
    intro a ha b hb
    have ha' := (List.mem_filter.mp ha).2
    have hb' := (List.mem_filter.mp hb).2
    simp only [beq_iff_eq] at ha' hb'
    simp only [scoreLE, decide_eq_true_eq]
    omega
  have hsub2 : List.Sublist (scored.filter (fun e => e.1 == s))
      (sortScored scored) :=
    List.sublist_mergeSort scoreLE_trans scoreLE_total hc_pair
      (List.filter_sublist _)
  have hfil : (scored.filter (fun e => e.1 == s)).filter (fun e => e.1 == s)
      = scored.filter (fun e => e.1 == s) :=
    List.filter_eq_self.mpr (fun a ha => (List.mem_filter.mp ha).2)
  have hsub3 : List.Sublist (scored.filter (fun e => e.1 == s))
      ((sortScored scored).filter (fun e => e.1 == s)) := by
    have := List.Sublist.filter (fun e => e.1 == s) hsub2
    rwa [hfil] at this
  have hperm : List.Perm ((sortScored scored).filter (fun e => e.1 == s))
      (scored.filter (fun e => e.1 == s)) :=
    List.Perm.filter _ (List.mergeSort_perm scored scoreLE)
  exact (hsub3.eq_of_length hperm.length_eq.symm).symm

/-- C6.  In the tier-3 scored fallback: a collected record scores exactly
15 iff both its lowered name and its lowered raw brand contain the query;
only positive scores are collected; the sorted list is descending in
score, so every 15-scorer is ranked before any 10- or 5-scorer and
whatever outranks a 15-scorer is itself a 15-scorer; and records of equal
score keep their relative order from the catalog scan. -/
theorem C6_tier3_scoring (query : String) (products : List (String × Record))
    (scored : List (Nat × Record))
    (h : scoredList query products = .ok scored) :
    (∀ e ∈ scored, (e.1 = 15 ↔
        ∃ nm, lowerName e.2 = .ok nm ∧ strContains nm query = true
          ∧ strContains (brandLower e.2) query = true))
    ∧ (∀ e ∈ sortScored scored, 0 < e.1)
    ∧ (∀ i j (hi : i < (sortScored scored).length)
        (hj : j < (sortScored scored).length), i < j →
        ((sortScored scored).get ⟨j, hj⟩).1
          ≤ ((sortScored scored).get ⟨i, hi⟩).1)
    ∧ (∀ i j (hi : i < (sortScored scored).length)
        (hj : j < (sortScored scored).length), i < j →
        ((sortScored scored).get ⟨j, hj⟩).1 = 15 →
        ((sortScored scored).get ⟨i, hi⟩).1 = 15)
    ∧ (∀ s, (sortScored scored).filter (fun e => e.1 == s)
        = scored.filter (fun e => e.1 == s)) := by
  have hchar := scoredList_mem h
  have hub : ∀ e ∈ scored, e.1 ≤ 15 := by
    intro e he
    obtain ⟨nm, _, hsc, _⟩ := hchar e he
    rw [hsc]
    split <;> split <;> omega
  have hmem : ∀ e ∈ sortScored scored, e ∈ scored := by
    intro e he
    exact List.mem_mergeSort.mp he
  have hsorted : ∀ i j (hi : i < (sortScored scored).length)
      (hj : j < (sortScored scored).length), i < j →
      ((sortScored scored).get ⟨j, hj⟩).1
        ≤ ((sortScored scored).get ⟨i, hi⟩).1 := by
    have hs := List.sorted_mergeSort scoreLE_trans scoreLE_total scored
    rw [List.pairwise_iff_get] at hs
    intro i j hi hj hij
    have := hs ⟨i, hi⟩ ⟨j, hj⟩ hij
    simpa only [scoreLE, decide_eq_true_eq] using this
  refine ⟨?_, ?_, hsorted, ?_, fun s => sortScored_filter_score scored s⟩
  · intro e he
    obtain ⟨nm, hnm, hsc, hpos⟩ := hchar e he
    constructor
    · intro h15
      refine ⟨nm, hnm, ?_⟩
      rw [h15] at hsc
      split at hsc <;> split at hsc <;> rename_i h1 h2 <;>
        first
        | exact ⟨h1, h2⟩
        | omega
    · rintro ⟨nm', hnm', hn, hb⟩
      rw [hnm] at hnm'
      injection hnm' with hnmeq
      rw [hnmeq] at hsc
      rw [hn, hb] at hsc
      simpa using hsc
  · intro e he
    obtain ⟨nm, hnm, hsc, hpos⟩ := hchar e (hmem e he)
    exact hpos
  · intro i j hi hj hij h15
    have hle := hsorted i j hi hj hij
    have hub' := hub _ (hmem _ (List.get_mem (sortScored scored) i hi))
    omega

/-- A record whose lowered name and brand both contain `"wid"`. -/
def scoredRecBoth : Record :=
  [("product_name", .str "Widget"), ("Brand", .str "widmax")]

/-- A record whose lowered name alone contains `"wid"`. -/
def scoredRecName : Record :=
  [("product_name", .str "wide table"), ("Brand", .str "Oak")]

/-- A record whose lowered brand alone contains `"wid"`. -/
def scoredRecBrand : Record :=
  [("product_name", .str "Chair"), ("Brand", .str "widco")]

/-- A record matching neither way for `"wid"`. -/
def scoredRecMiss : Record :=
  [("product_name", .str "Sofa"), ("Brand", .str "Plum")]

/-- A four-record catalog exercising every tier-3 scoring case. -/
def scoredCatalog : List (String × Record) :=
  [("1", scoredRecBoth), ("2", scoredRecName), ("3", scoredRecBrand),
    ("4", scoredRecMiss)]

/-- The scores the loop collects on `scoredCatalog` for query `"wid"`. -/
def scoredOut : List (Nat × Record) :=
  [(15, scoredRecBoth), (10, scoredRecName), (5, scoredRecBrand)]

/-- Witness for C6_tier3_scoring on a concrete four-record catalog and the
query `"wid"`. -/
theorem C6_tier3_scoring_witness :
    scoredList "wid" scoredCatalog = .ok scoredOut
    ∧ (∀ e ∈ scoredOut, (e.1 = 15 ↔
        ∃ nm, lowerName e.2 = .ok nm ∧ strContains nm "wid" = true
          ∧ strContains (brandLower e.2) "wid" = true))
    ∧ (∀ s, (sortScored scoredOut).filter (fun e => e.1 == s)
        = scoredOut.filter (fun e => e.1 == s)) :=
  ⟨rfl, (C6_tier3_scoring "wid" scoredCatalog scoredOut rfl).1,
    (C6_tier3_scoring "wid" scoredCatalog scoredOut rfl).2.2.2.2⟩

end Lumina
